import Mathlib

/-!
Shallow embedding of the TG-DL-BOT repository (Telegram batch download bot),
covering the batch controller (`src/core/batch.py`), the rate limiter and file
validation (`src/core/bot.py`), the performance optimizer
(`src/core/performance.py`), the progress throttle (`src/utils/progress.py`)
and the retry loops of `process_message` and `fetch_message`
(`src/core/bot.py`).
-/

namespace TGDL

/-! ## Batch controller (src/core/batch.py) -/

/-- Python `BatchState` enum of `src/core/batch.py`. -/
inductive BatchState where
  | RUNNING
  | PAUSED
  | CANCELLED
  | COMPLETED
deriving DecidableEq, Repr

/-- Python `BatchProgress` dataclass of `src/core/batch.py`.  `datetime` values are
modelled as natural-number timestamps. -/
structure BatchProgress where
  current : Nat
  total : Nat
  state : BatchState
  last_processed_id : Int
  start_time : Nat
  chat_id : Int
  start_message_id : Int
  link_type : String
  destination : Int
  pause_time : Option Nat := none
deriving DecidableEq, Repr

/-- The `batch_operations` dict of `BatchController`, keyed by user id. -/
abbrev BatchController := Int → Option BatchProgress

def emptyController : BatchController := fun _ => none

/-- Write the entry of one user (Python dict assignment). -/
def setJob (c : BatchController) (u : Int) (j : BatchProgress) : BatchController :=
  fun v => if v = u then some j else c v

/-- Drop the entry of one user (Python `del`). -/
def delJob (c : BatchController) (u : Int) : BatchController :=
  fun v => if v = u then none else c v

/-- The job record `start_batch` stores on success. -/
def freshJob (total_messages : Nat) (start_message_id : Int) (chat_id : Int)
    (link_type : String) (destination : Int) (now : Nat) : BatchProgress :=
  { current := 0
    total := total_messages
    state := .RUNNING
    last_processed_id := start_message_id - 1
    start_time := now
    chat_id := chat_id
    start_message_id := start_message_id
    link_type := link_type
    destination := destination
    pause_time := none }

/-- Python `BatchController.start_batch`: discards a COMPLETED/CANCELLED job, refuses
when an active job exists, otherwise installs a fresh RUNNING job. -/
def start_batch (c : BatchController) (user_id : Int) (total_messages : Nat)
    (start_message_id : Int) (chat_id : Int) (link_type : String)
    (destination : Int) (now : Nat) : Bool × BatchController :=
  match c user_id with
  | some existing =>
    if existing.state = .COMPLETED ∨ existing.state = .CANCELLED then
      (true, setJob c user_id
        (freshJob total_messages start_message_id chat_id link_type destination now))
    else
      (false, c)
  | none =>
    (true, setJob c user_id
      (freshJob total_messages start_message_id chat_id link_type destination now))

/-- Python `BatchController.pause_batch`. -/
def pause_batch (c : BatchController) (user_id : Int) (now : Nat) :
    Bool × BatchController :=
  match c user_id with
  | none => (false, c)
  | some p =>
    if p.state = .RUNNING then
      (true, setJob c user_id { p with state := .PAUSED, pause_time := some now })
    else
      (false, c)

/-- Python `BatchController.resume_batch`. -/
def resume_batch (c : BatchController) (user_id : Int) : Bool × BatchController :=
  match c user_id with
  | none => (false, c)
  | some p =>
    if p.state = .PAUSED then
      (true, setJob c user_id { p with state := .RUNNING, pause_time := none })
    else
      (false, c)

/-- Python `BatchController.cancel_batch`. -/
def cancel_batch (c : BatchController) (user_id : Int) : Bool × BatchController :=
  match c user_id with
  | none => (false, c)
  | some p =>
    if p.state = .RUNNING ∨ p.state = .PAUSED then
      (true, setJob c user_id { p with state := .CANCELLED })
    else
      (false, c)

/-- Python `BatchController.update_progress`: increments `current` of a RUNNING job,
records the processed id, and completes the job when `current` reaches
`total`. -/
def update_progress (c : BatchController) (user_id : Int) (message_id : Int) :
    Option BatchProgress × BatchController :=
  match c user_id with
  | none => (none, c)
  | some p =>
    if p.state = .RUNNING then
      let p1 := { p with current := p.current + 1, last_processed_id := message_id }
      let p2 := if p1.total ≤ p1.current then { p1 with state := .COMPLETED } else p1
      (some p2, setJob c user_id p2)
    else
      (some p, c)

/-- Python `BatchController.cleanup_completed`: drops the entry when terminal. -/
def cleanup_completed (c : BatchController) (user_id : Int) : BatchController :=
  match c user_id with
  | none => c
  | some p =>
    if p.state = .COMPLETED ∨ p.state = .CANCELLED then delJob c user_id else c

/-- Operations a caller can apply to the controller after `start_batch`
(`pause_batch`, `resume_batch`, `cancel_batch`, `update_progress`,
`cleanup_completed`), with the data each needs. -/
inductive BatchOp where
  | pauseOp (now : Nat)
  | resumeOp
  | cancelOp
  | recordOp (message_id : Int)
  | cleanupOp
deriving DecidableEq, Repr

/-- Apply one controller operation for user `u`, keeping only the resulting
controller state. -/
def apply_op (c : BatchController) (u : Int) : BatchOp → BatchController
  | .pauseOp now => (pause_batch c u now).2
  | .resumeOp => (resume_batch c u).2
  | .cancelOp => (cancel_batch c u).2
  | .recordOp mid => (update_progress c u mid).2
  | .cleanupOp => cleanup_completed c u

/-- Run a sequence of `update_progress` calls for user `u`, one per item id. -/
def run_updates (c : BatchController) (u : Int) (ids : List Int) : BatchController :=
  ids.foldl (fun s mid => (update_progress s u mid).2) c

/-- Run a sequence of controller operations, each with its target user. -/
def run_ops (c : BatchController) (ops : List (Int × BatchOp)) : BatchController :=
  ops.foldl (fun s p => apply_op s p.1 p.2) c

/-- The transitions the spec permits: stutter, RUNNING ⇄ PAUSED,
RUNNING/PAUSED → CANCELLED, RUNNING → COMPLETED. -/
def allowed_transition (s t : BatchState) : Prop :=
  s = t ∨ (s = .RUNNING ∧ t = .PAUSED) ∨ (s = .PAUSED ∧ t = .RUNNING) ∨
  (s = .RUNNING ∧ t = .CANCELLED) ∨ (s = .PAUSED ∧ t = .CANCELLED) ∨
  (s = .RUNNING ∧ t = .COMPLETED)

instance (s t : BatchState) : Decidable (allowed_transition s t) := by
  unfold allowed_transition
  infer_instance

/-! ## Rate limiter (src/core/bot.py, check_rate_limit) -/

/-- One entry of the `rate_limits` dict: request count and window start. -/
structure RateWindow where
  count : Nat
  window_start : ℚ
deriving DecidableEq, Repr

/-- The `rate_limits` dict, keyed by user id; times are rationals standing
for `time.time()` values. -/
abbrev RateLimits := Int → Option RateWindow

def emptyRateLimits : RateLimits := fun _ => none

def setWindow (rl : RateLimits) (u : Int) (w : RateWindow) : RateLimits :=
  fun v => if v = u then some w else rl v

/-- Python `RATE_LIMIT_WINDOW = 60` seconds (src/core/bot.py line 73). -/
def RATE_LIMIT_WINDOW : ℚ := 60

/-- Python `MAX_REQUESTS = 20` per window (src/core/bot.py line 74). -/
def MAX_REQUESTS : Nat := 20

/-- Python `check_rate_limit`: create the window on first sight, restart it when more
than `RATE_LIMIT_WINDOW` seconds have passed, refuse once the count reaches
`MAX_REQUESTS`, otherwise count the request and allow it. -/
def check_rate_limit (rl : RateLimits) (u : Int) (now : ℚ) : Bool × RateLimits :=
  let w0 := (rl u).getD ⟨0, now⟩
  let w1 := if RATE_LIMIT_WINDOW < now - w0.window_start then ⟨0, now⟩ else w0
  if MAX_REQUESTS ≤ w1.count then
    (false, setWindow rl u w1)
  else
    (true, setWindow rl u ⟨w1.count + 1, w1.window_start⟩)

/-- Run `check_rate_limit` once per time in the list, collecting the answers. -/
def run_calls (rl : RateLimits) (u : Int) : List ℚ → List Bool × RateLimits
  | [] => ([], rl)
  | t :: rest =>
    let r := check_rate_limit rl u t
    let rr := run_calls r.2 u rest
    (r.1 :: rr.1, rr.2)

/-! ## Performance optimizer (src/core/performance.py) -/

/-- Python `PerformanceOptimizer.get_retry_delay`: exponential backoff capped at
`max_delay`, an optional uniform ±25% jitter, and a 0.1s floor.  Real
arithmetic is modelled over ℚ; the uniform draw
`random.uniform(-jitter_amount, jitter_amount)` is `jitter_amount * draw`
with `draw ∈ [-1, 1]`. -/
def get_retry_delay (attempt : ℕ) (base_delay max_delay : ℚ) (jitter : Bool)
    (draw : ℚ) : ℚ :=
  let delay := min (base_delay * 2 ^ attempt) max_delay
  let delay2 := if jitter then delay + delay * (1/4) * draw else delay
  max (1/10) delay2

/-- Python `PerformanceOptimizer.should_update_progress`: emit at start and end,
on a changed percentage that is a multiple of five, or after three seconds.
`int((current / total) * 100)` on non-negative ints is natural division. -/
def should_update_progress (current total : ℕ) (now last_update : ℚ)
    (last_percentage : ℤ) : Bool :=
  if total = 0 then false
  else
    let current_percentage : ℤ := ((current * 100) / total : ℕ)
    if current = 0 ∨ total ≤ current then true
    else if current_percentage ≠ last_percentage ∧ current_percentage % 5 = 0 then
      true
    else if 3 ≤ now - last_update then true
    else false

/-- Round a percentage down to a multiple of five. -/
def percent_bucket (p : ℤ) : ℤ := 5 * (p / 5)

/-- Modelled from the spec sentence for the throttle (the reading of the claim):
emit at start, at completion, when the completed-percentage bucket (rounded
down to a multiple of 5) changed since the last emission, or after three
seconds.  Kept separate from `should_update_progress` to compare the two. -/
def should_update_spec (current total : ℕ) (now last_update : ℚ)
    (last_percentage : ℤ) : Bool :=
  if total = 0 then false
  else
    let current_percentage : ℤ := ((current * 100) / total : ℕ)
    decide (current = 0 ∨ total ≤ current ∨
      percent_bucket current_percentage ≠ percent_bucket last_percentage ∨
      3 ≤ now - last_update)

/-! ## File validation (src/core/bot.py, validate_file) -/

/-- Python `MAX_FILE_SIZE = 2000 * 1024 * 1024` bytes (src/core/bot.py line 75). -/
def MAX_FILE_SIZE : ℕ := 2000 * 1024 * 1024

/-- Python `validate_file`: the staged file is abstracted by whether it exists, its
size in bytes, and the content type `mimetypes.guess_type` finds, if any. -/
def validate_file (file_exists : Bool) (file_size : ℕ)
    (mime_type : Option String) : Bool × String :=
  if file_exists = false then (false, "File does not exist")
  else if MAX_FILE_SIZE < file_size then
    (false, "File size exceeds limit (2GB)")
  else
    match mime_type with
    | none => (false, "Unknown file type")
    | some _ => (true, "")

/-! ## Retry loops (src/core/bot.py, fetch_message and process_message) -/

/-- Python `MAX_RETRIES = 3` (src/core/bot.py line 72). -/
def MAX_RETRIES : ℕ := 3

/-- A bounded retry loop over a stream of attempt outcomes (`true` means the
attempt succeeds): returns how many attempts ran and whether one succeeded.
A phase with budget b stops at the first success or after b failures. -/
def run_retries : ℕ → (ℕ → Bool) → ℕ × Bool
  | 0, _ => (0, false)
  | b + 1, outcomes =>
    if outcomes 0 then (1, true)
    else
      let r := run_retries b (fun i => outcomes (i + 1))
      (r.1 + 1, r.2)

/-- The `fetch_message` loop: `retry_count` runs 0, 1, 2 against
`max_retries = 2`, so the budget is 3 attempts. -/
def fetch_message_run (outcomes : ℕ → Bool) : ℕ × Bool :=
  run_retries (2 + 1) outcomes

/-- The media path of `process_message`: a download retry loop with budget
`MAX_RETRIES`, then, on success, an upload retry loop whose counter is reset
to 0 (src/core/bot.py line 310) and so has its own `MAX_RETRIES` budget.
Returns (overall success, download attempts, upload attempts). -/
def process_media (dl ul : ℕ → Bool) : Bool × ℕ × ℕ :=
  let d := run_retries MAX_RETRIES dl
  if d.2 then
    let u := run_retries MAX_RETRIES ul
    (u.2, d.1, u.1)
  else
    (false, d.1, 0)

end TGDL

namespace TGDL

@[simp] theorem setJob_at (c : BatchController) (u : Int) (j : BatchProgress) :
    setJob c u j u = some j := by
  simp [setJob]

theorem setJob_ne (c : BatchController) (u v : Int) (j : BatchProgress)
    (h : v ≠ u) : setJob c u j v = c v := by
  simp [setJob, h]

/-- C1: `start_batch` returns false without mutation while an active
(RUNNING/PAUSED) job exists; a COMPLETED/CANCELLED job is discarded and
`start_batch` then succeeds, installing a RUNNING job with `current = 0`;
and a second `start_batch` right after a successful one returns false. -/
theorem C1_start_batch (c : BatchController) (u : Int) (n : Nat) (sid cid : Int)
    (lt : String) (d : Int) (now : Nat) :
    (∀ j, c u = some j → (j.state = .RUNNING ∨ j.state = .PAUSED) →
      start_batch c u n sid cid lt d now = (false, c)) ∧
    (∀ j, c u = some j → (j.state = .COMPLETED ∨ j.state = .CANCELLED) →
      (start_batch c u n sid cid lt d now).1 = true ∧
      (start_batch c u n sid cid lt d now).2 u = some (freshJob n sid cid lt d now)) ∧
    ((start_batch c u n sid cid lt d now).1 = true →
      ∀ n2 sid2 cid2 lt2 d2 now2,
        (start_batch (start_batch c u n sid cid lt d now).2 u n2 sid2 cid2 lt2 d2
          now2).1 = false) := by
  refine ⟨?_, ?_, ?_⟩
  · intro j hj hact
    have hterm : ¬ (j.state = .COMPLETED ∨ j.state = .CANCELLED) := by
      rcases hact with h | h <;> simp [h]
    simp [start_batch, hj, hterm]
  · intro j hj hterm
    simp [start_batch, hj, hterm]
  · intro h1 n2 sid2 cid2 lt2 d2 now2
    set c2 := (start_batch c u n sid cid lt d now).2 with hc2
    have hres : c2 u = some (freshJob n sid cid lt d now) := by
      rcases hcu : c u with _ | j
      · simp [hc2, start_batch, hcu]
      · by_cases hterm : j.state = .COMPLETED ∨ j.state = .CANCELLED
        · simp [hc2, start_batch, hcu, hterm]
        · exfalso
          simp [start_batch, hcu, hterm] at h1
    simp [start_batch, hres, freshJob]

/-- Witness for C1 at a concrete controller holding one RUNNING job. -/
theorem C1_start_batch_witness :
    start_batch
      (setJob emptyController 1 (freshJob 5 10 7 "private" 99 0)) 1 4 11 8 "public" 77 1 =
      (false, setJob emptyController 1 (freshJob 5 10 7 "private" 99 0)) :=
  (C1_start_batch (setJob emptyController 1 (freshJob 5 10 7 "private" 99 0))
      1 4 11 8 "public" 77 1).1
    (freshJob 5 10 7 "private" 99 0) (by simp) (Or.inl rfl)

/-- Behaviour of a run of `update_progress` calls on a RUNNING job whose count
cannot overshoot: the count advances by one per call and the state completes
exactly when the count reaches the total. -/
theorem run_updates_spec : ∀ (ids : List Int) (c : BatchController) (u : Int)
    (j : BatchProgress), c u = some j → j.state = .RUNNING →
    j.current < j.total → j.current + ids.length ≤ j.total →
    ∃ jj, run_updates c u ids u = some jj ∧
      jj.current = j.current + ids.length ∧ jj.total = j.total ∧
      jj.state = (if j.total ≤ j.current + ids.length then BatchState.COMPLETED
        else BatchState.RUNNING) := by
  intro ids
  induction ids with
  | nil =>
    intro c u j hj hrun hlt _
    refine ⟨j, by simpa [run_updates] using hj, by simp, rfl, ?_⟩
    rw [hrun]
    have hc : ¬ j.total ≤ j.current + ([] : List Int).length := by
      simpa using Nat.not_le.mpr hlt
    rw [if_neg hc]
  | cons mid rest ih =>
    intro c u j hj hrun hlt hle
    have hstep : run_updates c u (mid :: rest) =
        run_updates ((update_progress c u mid).2) u rest := by
      simp [run_updates]
    by_cases hdone : j.total ≤ j.current + 1
    · have hrest : rest = [] := by
        have := hle
        simp at this
        have hlen : rest.length = 0 := by omega
        exact List.length_eq_zero.mp hlen
      subst hrest
      have hupd : (update_progress c u mid).2 u = some { j with current := j.current + 1, last_processed_id := mid, state := BatchState.COMPLETED } := by
        simp [update_progress, hj, hrun, hdone]
      refine ⟨{ j with current := j.current + 1, last_processed_id := mid, state := BatchState.COMPLETED }, ?_, ?_, ?_, ?_⟩
      · rw [hstep]
        simpa [run_updates] using hupd
      · simp
      · simp
      · have hlen : ([mid] : List Int).length = 1 := rfl
        rw [hlen, if_pos (by omega : j.total ≤ j.current + 1)]
    · have hupd : (update_progress c u mid).2 u = some
          { j with current := j.current + 1, last_processed_id := mid } := by
        simp [update_progress, hj, hrun, hdone]
      obtain ⟨jj, ha, hb, hc, hd⟩ := ih ((update_progress c u mid).2) u
        { j with current := j.current + 1, last_processed_id := mid }
        hupd hrun (by simpa using Nat.lt_of_le_of_ne (by omega) (by omega))
        (by simp at hle ⊢; omega)
      refine ⟨jj, by rw [hstep]; exact ha, ?_, by simpa using hc, ?_⟩
      · rw [hb]
        simp
        omega
      · rw [hd]
        simp
        have harith : j.current + 1 + rest.length = j.current + (rest.length + 1) := by
          omega
        rw [harith]

/-- C2: a job started with total n (1 ≤ n ≤ 300) and driven only by
`update_progress` reaches COMPLETED with `current = n` after exactly n calls
with arbitrary item ids, and is never COMPLETED after only n - 1 calls. -/
theorem C2_recordProgress (u : Int) (n : Nat) (sid cid d : Int) (lt : String)
    (now : Nat) (ids ids2 : List Int)
    (h1 : 1 ≤ n) (h2 : n ≤ 300) (hn : ids.length = n) (hn2 : ids2.length = n - 1) :
    (∃ jj, run_updates (start_batch emptyController u n sid cid lt d now).2 u ids u =
        some jj ∧ jj.state = .COMPLETED ∧ jj.current = n) ∧
    (∀ jj, run_updates (start_batch emptyController u n sid cid lt d now).2 u ids2 u =
        some jj → jj.state ≠ .COMPLETED) := by
  have hstart : (start_batch emptyController u n sid cid lt d now).2 u =
      some (freshJob n sid cid lt d now) := by
    simp [start_batch, emptyController]
  have hstate : (freshJob n sid cid lt d now).state = .RUNNING := rfl
  have hcur : (freshJob n sid cid lt d now).current = 0 := rfl
  have htot : (freshJob n sid cid lt d now).total = n := rfl
  constructor
  · obtain ⟨jj, ha, hb, hc, hd⟩ := run_updates_spec ids _ u _ hstart hstate
      (by rw [hcur, htot]; omega) (by rw [hcur, htot, hn]; omega)
    refine ⟨jj, ha, ?_, ?_⟩
    · rw [hd, hcur, htot, hn, if_pos (by omega)]
    · rw [hb, hcur, hn, Nat.zero_add]
  · intro jj hjj
    obtain ⟨jj2, ha, hb, hc, hd⟩ := run_updates_spec ids2 _ u _ hstart hstate
      (by rw [hcur, htot]; omega) (by rw [hcur, htot, hn2]; omega)
    rw [hjj] at ha
    have heq : jj = jj2 := Option.some.inj ha
    subst heq
    rw [hd, hcur, htot, hn2, if_neg (by omega)]
    simp

/-- An operation aimed at a different user leaves the entry of a user untouched. -/
theorem apply_op_other (c : BatchController) (v : Int) (op : BatchOp) (u : Int)
    (h : u ≠ v) : apply_op c v op u = c u := by
  cases op with
  | pauseOp now =>
    rcases hcv : c v with _ | p
    · simp [apply_op, pause_batch, hcv]
    · by_cases hs : p.state = BatchState.RUNNING
      · simp [apply_op, pause_batch, hcv, hs, setJob, h]
      · simp [apply_op, pause_batch, hcv, hs]
  | resumeOp =>
    rcases hcv : c v with _ | p
    · simp [apply_op, resume_batch, hcv]
    · by_cases hs : p.state = BatchState.PAUSED
      · simp [apply_op, resume_batch, hcv, hs, setJob, h]
      · simp [apply_op, resume_batch, hcv, hs]
  | cancelOp =>
    rcases hcv : c v with _ | p
    · simp [apply_op, cancel_batch, hcv]
    · by_cases hs : p.state = BatchState.RUNNING ∨ p.state = BatchState.PAUSED
      · simp [apply_op, cancel_batch, hcv, hs, setJob, h]
      · simp [apply_op, cancel_batch, hcv, hs]
  | recordOp mid =>
    rcases hcv : c v with _ | p
    · simp [apply_op, update_progress, hcv]
    · by_cases hs : p.state = BatchState.RUNNING
      · simp [apply_op, update_progress, hcv, hs, setJob, h]
      · simp [apply_op, update_progress, hcv, hs]
  | cleanupOp =>
    rcases hcv : c v with _ | p
    · simp [apply_op, cleanup_completed, hcv]
    · by_cases hs : p.state = BatchState.COMPLETED ∨ p.state = BatchState.CANCELLED
      · simp [apply_op, cleanup_completed, hcv, hs, delJob, h]
      · simp [apply_op, cleanup_completed, hcv, hs]

/-- C3: a COMPLETED or CANCELLED job is left whole by pause, resume, cancel
and recordProgress, and every state change any operation produces is one of
the permitted transitions (RUNNING ⇄ PAUSED, RUNNING/PAUSED → CANCELLED,
RUNNING → COMPLETED, stutter). -/
theorem C3_terminal_and_transitions (c : BatchController) (u v : Int)
    (op : BatchOp) (j : BatchProgress) (hj : c u = some j) :
    ((j.state = .COMPLETED ∨ j.state = .CANCELLED) → op ≠ .cleanupOp →
      apply_op c v op u = some j) ∧
    (∀ jj, apply_op c v op u = some jj → allowed_transition j.state jj.state) := by
  by_cases huv : u = v
  · subst huv
    constructor
    · intro hterm hcl
      have hsr : ¬ j.state = BatchState.RUNNING := by
        rcases hterm with h | h <;> simp [h]
      have hsp : ¬ j.state = BatchState.PAUSED := by
        rcases hterm with h | h <;> simp [h]
      cases op with
      | pauseOp now => simp [apply_op, pause_batch, hj, hsr]
      | resumeOp => simp [apply_op, resume_batch, hj, hsp]
      | cancelOp =>
        have : ¬ (j.state = BatchState.RUNNING ∨ j.state = BatchState.PAUSED) := by
          simp [hsr, hsp]
        simp [apply_op, cancel_batch, hj, this]
      | recordOp mid => simp [apply_op, update_progress, hj, hsr]
      | cleanupOp => exact absurd rfl hcl
    · intro jj hjj
      cases op with
      | pauseOp now =>
        by_cases hs : j.state = BatchState.RUNNING
        · have hres : apply_op c u (.pauseOp now) u = some { j with state := BatchState.PAUSED, pause_time := some now } := by
            simp [apply_op, pause_batch, hj, hs]
          rw [hres] at hjj
          have h2 := Option.some.inj hjj
          exact Or.inr (Or.inl ⟨hs, by rw [← h2]⟩)
        · have hres : apply_op c u (.pauseOp now) u = some j := by
            simp [apply_op, pause_batch, hj, hs]
          rw [hres] at hjj
          exact Or.inl (by rw [Option.some.inj hjj])
      | resumeOp =>
        by_cases hs : j.state = BatchState.PAUSED
        · have hres : apply_op c u .resumeOp u = some { j with state := BatchState.RUNNING, pause_time := none } := by
            simp [apply_op, resume_batch, hj, hs]
          rw [hres] at hjj
          have h2 := Option.some.inj hjj
          exact Or.inr (Or.inr (Or.inl ⟨hs, by rw [← h2]⟩))
        · have hres : apply_op c u .resumeOp u = some j := by
            simp [apply_op, resume_batch, hj, hs]
          rw [hres] at hjj
          exact Or.inl (by rw [Option.some.inj hjj])
      | cancelOp =>
        by_cases hs : j.state = BatchState.RUNNING ∨ j.state = BatchState.PAUSED
        · have hres : apply_op c u .cancelOp u = some { j with state := BatchState.CANCELLED } := by
            simp [apply_op, cancel_batch, hj, hs]
          rw [hres] at hjj
          have h2 := Option.some.inj hjj
          rcases hs with hs | hs
          · exact Or.inr (Or.inr (Or.inr (Or.inl ⟨hs, by rw [← h2]⟩)))
          · exact Or.inr (Or.inr (Or.inr (Or.inr (Or.inl ⟨hs, by rw [← h2]⟩))))
        · have hres : apply_op c u .cancelOp u = some j := by
            simp [apply_op, cancel_batch, hj, hs]
          rw [hres] at hjj
          exact Or.inl (by rw [Option.some.inj hjj])
      | recordOp mid =>
        by_cases hs : j.state = BatchState.RUNNING
        · by_cases hd : j.total ≤ j.current + 1
          · have hres : apply_op c u (.recordOp mid) u = some { j with current := j.current + 1, last_processed_id := mid, state := BatchState.COMPLETED } := by
              simp [apply_op, update_progress, hj, hs, hd]
            rw [hres] at hjj
            have h2 := Option.some.inj hjj
            exact Or.inr (Or.inr (Or.inr (Or.inr (Or.inr ⟨hs, by rw [← h2]⟩))))
          · have hres : apply_op c u (.recordOp mid) u = some { j with current := j.current + 1, last_processed_id := mid } := by
              simp [apply_op, update_progress, hj, hs, hd]
            rw [hres] at hjj
            have h2 := Option.some.inj hjj
            exact Or.inl (by rw [← h2])
        · have hres : apply_op c u (.recordOp mid) u = some j := by
            simp [apply_op, update_progress, hj, hs]
          rw [hres] at hjj
          exact Or.inl (by rw [Option.some.inj hjj])
      | cleanupOp =>
        by_cases hterm : j.state = BatchState.COMPLETED ∨ j.state = BatchState.CANCELLED
        · have hres : apply_op c u .cleanupOp u = none := by
            simp [apply_op, cleanup_completed, hj, hterm, delJob]
          rw [hres] at hjj
          exact absurd hjj (by simp)
        · have hres : apply_op c u .cleanupOp u = some j := by
            simp [apply_op, cleanup_completed, hj, hterm]
          rw [hres] at hjj
          exact Or.inl (by rw [Option.some.inj hjj])
  · have hother := apply_op_other c v op u huv
    constructor
    · intro _ _
      rw [hother, hj]
    · intro jj hjj
      rw [hother, hj] at hjj
      exact Or.inl (by rw [Option.some.inj hjj])

/-- Witness for C3: pausing a COMPLETED job leaves it untouched. -/
theorem C3_terminal_and_transitions_witness :
    apply_op (setJob emptyController 1 { freshJob 3 10 7 "private" 99 0 with state := BatchState.COMPLETED }) 1 (.pauseOp 5) 1 =
      some { freshJob 3 10 7 "private" 99 0 with state := BatchState.COMPLETED } :=
  (C3_terminal_and_transitions
      (setJob emptyController 1 { freshJob 3 10 7 "private" 99 0 with state := BatchState.COMPLETED })
      1 1 (.pauseOp 5) _ (by simp)).1 (Or.inl rfl) (by decide)

/-- The inductive invariant behind C9: the recorded count never exceeds the
total, and a RUNNING or PAUSED job is strictly below its total. -/
def batchInv (c : BatchController) (u : Int) : Prop :=
  ∀ j, c u = some j → j.current ≤ j.total ∧
    ((j.state = BatchState.RUNNING ∨ j.state = BatchState.PAUSED) →
      j.current < j.total)

theorem batchInv_preserved (c : BatchController) (u v : Int) (op : BatchOp)
    (h : batchInv c u) : batchInv (apply_op c v op) u := by
  by_cases huv : u = v
  · subst huv
    intro j hjres
    cases op with
    | pauseOp now =>
      rcases hcu : c u with _ | p
      · simp [apply_op, pause_batch, hcu] at hjres
      · obtain ⟨h1, h2⟩ := h p hcu
        by_cases hs : p.state = BatchState.RUNNING
        · simp [apply_op, pause_batch, hcu, hs] at hjres
          rw [← hjres]
          exact ⟨h1, fun _ => h2 (Or.inl hs)⟩
        · simp [apply_op, pause_batch, hcu, hs] at hjres
          rw [← hjres]
          exact ⟨h1, h2⟩
    | resumeOp =>
      rcases hcu : c u with _ | p
      · simp [apply_op, resume_batch, hcu] at hjres
      · obtain ⟨h1, h2⟩ := h p hcu
        by_cases hs : p.state = BatchState.PAUSED
        · simp [apply_op, resume_batch, hcu, hs] at hjres
          rw [← hjres]
          exact ⟨h1, fun _ => h2 (Or.inr hs)⟩
        · simp [apply_op, resume_batch, hcu, hs] at hjres
          rw [← hjres]
          exact ⟨h1, h2⟩
    | cancelOp =>
      rcases hcu : c u with _ | p
      · simp [apply_op, cancel_batch, hcu] at hjres
      · obtain ⟨h1, h2⟩ := h p hcu
        by_cases hs : p.state = BatchState.RUNNING ∨ p.state = BatchState.PAUSED
        · simp [apply_op, cancel_batch, hcu, hs] at hjres
          rw [← hjres]
          refine ⟨h1, ?_⟩
          intro hcontra
          simp at hcontra
        · simp [apply_op, cancel_batch, hcu, hs] at hjres
          rw [← hjres]
          exact ⟨h1, h2⟩
    | recordOp mid =>
      rcases hcu : c u with _ | p
      · simp [apply_op, update_progress, hcu] at hjres
      · obtain ⟨h1, h2⟩ := h p hcu
        by_cases hs : p.state = BatchState.RUNNING
        · have hlt : p.current < p.total := h2 (Or.inl hs)
          by_cases hd : p.total ≤ p.current + 1
          · simp [apply_op, update_progress, hcu, hs, hd] at hjres
            rw [← hjres]
            refine ⟨by simp; omega, ?_⟩
            intro hcontra
            simp at hcontra
          · simp [apply_op, update_progress, hcu, hs, hd] at hjres
            rw [← hjres]
            refine ⟨by simp; omega, ?_⟩
            intro _
            simp
            omega
        · simp [apply_op, update_progress, hcu, hs] at hjres
          rw [← hjres]
          exact ⟨h1, h2⟩
    | cleanupOp =>
      rcases hcu : c u with _ | p
      · simp [apply_op, cleanup_completed, hcu] at hjres
      · by_cases hterm : p.state = BatchState.COMPLETED ∨ p.state = BatchState.CANCELLED
        · simp [apply_op, cleanup_completed, hcu, hterm, delJob] at hjres
        · simp [apply_op, cleanup_completed, hcu, hterm] at hjres
          rw [← hjres]
          exact h p hcu
  · intro j hjres
    rw [apply_op_other c v op u huv] at hjres
    exact h j hjres

theorem batchInv_run_ops (c : BatchController) (u : Int)
    (ops : List (Int × BatchOp)) (h : batchInv c u) :
    batchInv (run_ops c ops) u := by
  induction ops generalizing c with
  | nil => simpa [run_ops] using h
  | cons p rest ih =>
    have hstep : run_ops c (p :: rest) = run_ops (apply_op c p.1 p.2) rest := by
      simp [run_ops]
    rw [hstep]
    exact ih _ (batchInv_preserved c u p.1 p.2 h)

/-- C9: for a job started with total n (1 ≤ n ≤ 300), `current ≤ total` holds
after any sequence of pause/resume/cancel/record/cleanup operations. -/
theorem C9_current_le_total (u : Int) (n : Nat) (sid cid d : Int) (lt : String)
    (now : Nat) (h1 : 1 ≤ n) (h2 : n ≤ 300) (ops : List (Int × BatchOp))
    (j : BatchProgress)
    (hj : run_ops (start_batch emptyController u n sid cid lt d now).2 ops u = some j) :
    j.current ≤ j.total := by
  have hinv0 : batchInv (start_batch emptyController u n sid cid lt d now).2 u := by
    intro j0 hj0
    have hstart : (start_batch emptyController u n sid cid lt d now).2 u =
        some (freshJob n sid cid lt d now) := by
      simp [start_batch, emptyController]
    rw [hstart] at hj0
    rw [← Option.some.inj hj0]
    refine ⟨by simp [freshJob], ?_⟩
    intro _
    simp [freshJob]
    omega
  exact ((batchInv_run_ops _ u ops hinv0) j hj).1

/-- Witness for C9 after a pause operation on a started job. -/
theorem C9_current_le_total_witness :
    ({ freshJob 1 10 7 "private" 99 0 with state := BatchState.PAUSED, pause_time := some 2 } : BatchProgress).current ≤
      ({ freshJob 1 10 7 "private" 99 0 with state := BatchState.PAUSED, pause_time := some 2 } : BatchProgress).total :=
  C9_current_le_total 1 1 10 7 99 "private" 0 (by decide) (by decide)
    [(1, .pauseOp 2)] _ (by simp [run_ops, apply_op, start_batch, emptyController, pause_batch, freshJob, setJob])

theorem setWindow_self (rl : RateLimits) (u : Int) (w : RateWindow)
    (h : rl u = some w) : setWindow rl u w = rl := by
  funext v
  by_cases hv : v = u
  · subst hv
    simp [setWindow, h]
  · simp [setWindow, hv]

/-- Calls inside the window while the count stays below capacity all succeed
and advance the count one by one, keeping the window start. -/
theorem run_calls_fill (u : Int) (s : ℚ) : ∀ (ts : List ℚ) (rl : RateLimits)
    (k : Nat), rl u = some ⟨k, s⟩ → k + ts.length ≤ MAX_REQUESTS →
    (∀ t ∈ ts, t - s ≤ RATE_LIMIT_WINDOW) →
    (run_calls rl u ts).1 = List.replicate ts.length true ∧
    (run_calls rl u ts).2 u = some ⟨k + ts.length, s⟩ := by
  intro ts
  induction ts with
  | nil =>
    intro rl k hk _ _
    exact ⟨rfl, by simpa [run_calls] using hk⟩
  | cons t rest ih =>
    intro rl k hk hle hin
    have hnr : ¬ RATE_LIMIT_WINDOW < t - s :=
      not_lt.mpr (hin t (List.mem_cons_self t rest))
    have hcnt : ¬ MAX_REQUESTS ≤ k := by
      simp [MAX_REQUESTS] at hle ⊢
      omega
    have hstep : check_rate_limit rl u t = (true, setWindow rl u ⟨k + 1, s⟩) := by
      simp [check_rate_limit, hk, hnr, hcnt]
    obtain ⟨ha, hb⟩ := ih (setWindow rl u ⟨k + 1, s⟩) (k + 1)
      (by simp [setWindow]) (by simp at hle ⊢; omega)
      (fun t2 ht2 => hin t2 (List.mem_cons_of_mem t ht2))
    constructor
    · simp [run_calls, hstep, ha, List.replicate_succ]
    · have harith : k + 1 + rest.length = k + (t :: rest).length := by
        simp
        omega
      rw [← harith]
      simp [run_calls, hstep, hb]

/-- C4: for a fresh requester, 20 calls inside one 60-second window all pass,
the 21st call in the window is refused and leaves the rate state untouched,
and a call after the window has elapsed resets the count and passes. -/
theorem C4_rate_limiter (u : Int) (t0 t21 t22 : ℚ) (ts : List ℚ)
    (hlen : ts.length = 19)
    (hin : ∀ t ∈ ts, t - t0 ≤ RATE_LIMIT_WINDOW)
    (h21 : t21 - t0 ≤ RATE_LIMIT_WINDOW)
    (h22 : RATE_LIMIT_WINDOW < t22 - t0) :
    (check_rate_limit emptyRateLimits u t0).1 = true ∧
    (run_calls (check_rate_limit emptyRateLimits u t0).2 u ts).1 =
      List.replicate 19 true ∧
    (check_rate_limit (run_calls (check_rate_limit emptyRateLimits u t0).2 u ts).2 u t21).1 = false ∧
    (check_rate_limit (run_calls (check_rate_limit emptyRateLimits u t0).2 u ts).2 u t21).2 =
      (run_calls (check_rate_limit emptyRateLimits u t0).2 u ts).2 ∧
    (check_rate_limit (run_calls (check_rate_limit emptyRateLimits u t0).2 u ts).2 u t22).1 = true ∧
    (check_rate_limit (run_calls (check_rate_limit emptyRateLimits u t0).2 u ts).2 u t22).2 u =
      some ⟨1, t22⟩ := by
  have hz : ¬ RATE_LIMIT_WINDOW < t0 - t0 := by
    simp [RATE_LIMIT_WINDOW]
  have hcnt0 : ¬ MAX_REQUESTS ≤ 0 := by
    simp [MAX_REQUESTS]
  have hfirst1 : (check_rate_limit emptyRateLimits u t0).1 = true := by
    simp [check_rate_limit, emptyRateLimits, hz, hcnt0]
  have hfirst2 : (check_rate_limit emptyRateLimits u t0).2 u = some ⟨1, t0⟩ := by
    simp [check_rate_limit, emptyRateLimits, hz, hcnt0, setWindow]
  obtain ⟨hfill1, hfill2⟩ := run_calls_fill u t0 ts
    (check_rate_limit emptyRateLimits u t0).2 1 hfirst2
    (by rw [hlen]; simp [MAX_REQUESTS]) hin
  rw [hlen] at hfill1 hfill2
  have h20 : (run_calls (check_rate_limit emptyRateLimits u t0).2 u ts).2 u =
      some ⟨20, t0⟩ := hfill2
  have hn21 : ¬ RATE_LIMIT_WINDOW < t21 - t0 := not_lt.mpr h21
  have hc20 : MAX_REQUESTS ≤ 20 := by simp [MAX_REQUESTS]
  have h21st : check_rate_limit
      (run_calls (check_rate_limit emptyRateLimits u t0).2 u ts).2 u t21 =
      (false, (run_calls (check_rate_limit emptyRateLimits u t0).2 u ts).2) := by
    rw [check_rate_limit]
    simp only [h20, Option.getD_some, hn21, if_false, if_neg hn21]
    rw [if_pos hc20, setWindow_self _ _ _ h20]
  refine ⟨hfirst1, hfill1, by rw [h21st], by rw [h21st], ?_, ?_⟩
  · rw [check_rate_limit]
    simp only [h20, Option.getD_some]
    rw [if_pos h22]
    simp [MAX_REQUESTS]
  · rw [check_rate_limit]
    simp only [h20, Option.getD_some]
    rw [if_pos h22]
    simp [MAX_REQUESTS, setWindow]

/-- Witness for C4 with all 20 calls at time 0, the 21st at time 1 and the
last at time 61. -/
theorem C4_rate_limiter_witness :
    (check_rate_limit emptyRateLimits 1 0).1 = true ∧
    (run_calls (check_rate_limit emptyRateLimits 1 0).2 1 (List.replicate 19 0)).1 =
      List.replicate 19 true ∧
    (check_rate_limit (run_calls (check_rate_limit emptyRateLimits 1 0).2 1 (List.replicate 19 0)).2 1 1).1 = false ∧
    (check_rate_limit (run_calls (check_rate_limit emptyRateLimits 1 0).2 1 (List.replicate 19 0)).2 1 1).2 =
      (run_calls (check_rate_limit emptyRateLimits 1 0).2 1 (List.replicate 19 0)).2 ∧
    (check_rate_limit (run_calls (check_rate_limit emptyRateLimits 1 0).2 1 (List.replicate 19 0)).2 1 61).1 = true ∧
    (check_rate_limit (run_calls (check_rate_limit emptyRateLimits 1 0).2 1 (List.replicate 19 0)).2 1 61).2 1 =
      some ⟨1, 61⟩ :=
  C4_rate_limiter 1 0 1 61 (List.replicate 19 0)
    (by simp)
    (by intro t ht; rw [List.eq_of_mem_replicate ht]; norm_num [RATE_LIMIT_WINDOW])
    (by norm_num [RATE_LIMIT_WINDOW])
    (by norm_num [RATE_LIMIT_WINDOW])

/-- C5: the retry delay is at least 0.1s and at most 1.25 × max_delay for any
attempt and any jitter draw in [-1, 1]; without jitter it is exactly
min(base × 2^attempt, max) floored at 0.1s, non-decreasing in the attempt. -/
theorem C5_retry_delay (a : ℕ) (base_delay max_delay draw : ℚ)
    (hb : 0 ≤ base_delay) (hm : 1/10 ≤ max_delay) (hd1 : -1 ≤ draw)
    (hd2 : draw ≤ 1) :
    (∀ jt : Bool, 1/10 ≤ get_retry_delay a base_delay max_delay jt draw) ∧
    (∀ jt : Bool, get_retry_delay a base_delay max_delay jt draw ≤ max_delay * (5/4)) ∧
    (get_retry_delay a base_delay max_delay false draw =
      max (1/10) (min (base_delay * 2 ^ a) max_delay)) ∧
    (∀ b : ℕ, a ≤ b →
      get_retry_delay a base_delay max_delay false draw ≤
        get_retry_delay b base_delay max_delay false draw) := by
  have hpow : (0:ℚ) ≤ base_delay * 2 ^ a := by positivity
  have hd0 : (0:ℚ) ≤ min (base_delay * 2 ^ a) max_delay :=
    le_min hpow (by linarith)
  have hdm : min (base_delay * 2 ^ a) max_delay ≤ max_delay := min_le_right _ _
  refine ⟨fun jt => le_max_left _ _, fun jt => ?_, rfl, fun b hab => ?_⟩
  · unfold get_retry_delay
    apply max_le
    · linarith
    · cases jt with
      | false =>
        simp only [Bool.false_eq_true, if_false]
        linarith
      | true =>
        simp only [if_true]
        nlinarith [hd0, hdm, hd2]
  · show max (1/10) (min (base_delay * 2 ^ a) max_delay) ≤
      max (1/10) (min (base_delay * 2 ^ b) max_delay)
    refine max_le_max (le_refl _) (min_le_min ?_ (le_refl _))
    exact mul_le_mul_of_nonneg_left (pow_le_pow_right₀ (by norm_num) hab) hb

/-- Witness for C5 at attempt 2, defaults base 1 and max 60, draw 1/2. -/
theorem C5_retry_delay_witness :
    (∀ jt : Bool, 1/10 ≤ get_retry_delay 2 1 60 jt (1/2)) ∧
    (∀ jt : Bool, get_retry_delay 2 1 60 jt (1/2) ≤ 60 * (5/4)) ∧
    (get_retry_delay 2 1 60 false (1/2) = max (1/10) (min (1 * 2 ^ 2) 60)) ∧
    (∀ b : ℕ, 2 ≤ b →
      get_retry_delay 2 1 60 false (1/2) ≤ get_retry_delay b 1 60 false (1/2)) :=
  C5_retry_delay 2 1 60 (1/2) (by norm_num) (by norm_num) (by norm_num)
    (by norm_num)

/-- C6 counterexample: at current = 7, total = 100, last emitted percentage 3
and no elapsed time, the completed-percentage bucket changed (5 vs 0) so the
claim demands an emission, but the code suppresses the update because 7 is
not a multiple of 5. -/
theorem C6_counterexample :
    should_update_progress 7 100 0 0 3 = false ∧
    should_update_spec 7 100 0 0 3 = true := by
  constructor
  · norm_num [should_update_progress]
  · norm_num [should_update_spec, percent_bucket]

/-- C6 as amended: for total > 0 the code emits exactly when current = 0, or
current ≥ total, or the integer percentage differs from the last emitted one
AND is a multiple of 5, or at least 3 seconds have elapsed. -/
theorem C6_amended_throttle (current total : ℕ) (now last_update : ℚ)
    (lp : ℤ) (h : 0 < total) :
    should_update_progress current total now last_update lp = true ↔
      (current = 0 ∨ total ≤ current ∨
        ((((current * 100) / total : ℕ) : ℤ) ≠ lp ∧
          (((current * 100) / total : ℕ) : ℤ) % 5 = 0) ∨
        3 ≤ now - last_update) := by
  have h0 : ¬ total = 0 := Nat.pos_iff_ne_zero.mp h
  constructor
  · intro hl
    simp only [should_update_progress] at hl
    rw [if_neg h0] at hl
    split_ifs at hl with h1 h2 h3
    · tauto
    · tauto
    · tauto
  · intro hr
    simp only [should_update_progress]
    rw [if_neg h0]
    split_ifs with h1 h2 h3
    · rfl
    · rfl
    · rfl
    · exfalso
      rcases hr with h | h | h | h
      · exact h1 (Or.inl h)
      · exact h1 (Or.inr h)
      · exact h2 h
      · exact h3 h

/-- Witness for C6 (amended) at the start of a transfer. -/
theorem C6_amended_throttle_witness :
    should_update_progress 0 1 0 0 (-1) = true :=
  (C6_amended_throttle 0 1 0 0 (-1) (by norm_num)).mpr (Or.inl rfl)

/-- C7 counterexample: a file of exactly 2 GiB with a recognized type should
pass under the claim (size ≤ 2147483648) but the code rejects it, because
its limit is 2000 MiB = 2097152000 bytes. -/
theorem C7_counterexample :
    (validate_file true (2 * 1024 * 1024 * 1024) (some "video/mp4")).1 = false ∧
    (2 * 1024 * 1024 * 1024 : ℕ) ≤ 2147483648 ∧
    (some "video/mp4").isSome = true := by
  refine ⟨?_, by norm_num, rfl⟩
  norm_num [validate_file, MAX_FILE_SIZE]

/-- C7 as amended: validation passes exactly when the file exists, its size
is at most 2000 MiB (2097152000 bytes) and a content type was determined. -/
theorem C7_validate_file (file_exists : Bool) (file_size : ℕ)
    (mime_type : Option String) :
    (validate_file file_exists file_size mime_type).1 = true ↔
      (file_exists = true ∧ file_size ≤ 2000 * 1024 * 1024 ∧
        mime_type.isSome = true) := by
  unfold validate_file
  cases file_exists with
  | false => simp
  | true =>
    by_cases hs : MAX_FILE_SIZE < file_size
    · have hs2 : 2000 * 1024 * 1024 < file_size := by
        simpa [MAX_FILE_SIZE] using hs
      cases mime_type <;> simp [hs] <;> omega
    · have hs2 : file_size ≤ 2000 * 1024 * 1024 := by
        simpa [MAX_FILE_SIZE] using not_lt.mp hs
      cases mime_type <;> simp [hs] <;> omega

theorem run_retries_le (b : ℕ) : ∀ f, (run_retries b f).1 ≤ b := by
  induction b with
  | zero => intro f; simp [run_retries]
  | succ n ih =>
    intro f
    by_cases h : f 0 = true
    · simp [run_retries, h]
    · simp only [run_retries, h, Bool.false_eq_true, if_false]
      exact Nat.succ_le_succ (ih _)

theorem run_retries_all_fail (b : ℕ) : ∀ f, (∀ i, i < b → f i = false) →
    (run_retries b f).2 = false := by
  induction b with
  | zero => intro f _; simp [run_retries]
  | succ n ih =>
    intro f hf
    have h0 : f 0 = false := hf 0 (Nat.succ_pos n)
    simp only [run_retries, h0, Bool.false_eq_true, if_false]
    exact ih _ (fun i hi => hf (i + 1) (Nat.succ_lt_succ hi))

/-- C8: fetch, download and upload retry loops each run at most 3 attempts;
a phase whose 3 attempts all fail resolves to a failed outcome; and the
upload budget is independent of how many download attempts were used. -/
theorem C8_retry_budgets (fetch dl ul : ℕ → Bool) :
    (fetch_message_run fetch).1 ≤ 3 ∧
    ((∀ i, i < 3 → fetch i = false) → (fetch_message_run fetch).2 = false) ∧
    (process_media dl ul).2.1 ≤ 3 ∧
    (process_media dl ul).2.2 ≤ 3 ∧
    ((∀ i, i < 3 → dl i = false) → (process_media dl ul).1 = false) ∧
    ((run_retries MAX_RETRIES dl).2 = true → (∀ i, i < 3 → ul i = false) →
      (process_media dl ul).1 = false) ∧
    ((run_retries MAX_RETRIES dl).2 = true →
      (process_media dl ul).2.2 = (run_retries MAX_RETRIES ul).1) := by
  refine ⟨run_retries_le 3 fetch, run_retries_all_fail 3 fetch, ?_, ?_, ?_, ?_, ?_⟩
  · by_cases h : (run_retries MAX_RETRIES dl).2 = true <;>
      simp [process_media, h] <;> exact run_retries_le _ _
  · by_cases h : (run_retries MAX_RETRIES dl).2 = true <;>
      simp [process_media, h]
    exact run_retries_le _ _
  · intro hdl
    have : (run_retries MAX_RETRIES dl).2 = false :=
      run_retries_all_fail MAX_RETRIES dl hdl
    simp [process_media, this]
  · intro hds hul
    simp [process_media, hds]
    exact run_retries_all_fail MAX_RETRIES ul hul
  · intro hds
    simp [process_media, hds]

/-- Witness for C8: a failing upload phase fails the task even though the
download phase succeeded, and three failed fetch attempts yield no message. -/
theorem C8_retry_budgets_witness :
    (process_media (fun _ => true) (fun _ => false)).1 = false ∧
    (fetch_message_run (fun _ => false)).2 = false :=
  ⟨(C8_retry_budgets (fun _ => false) (fun _ => true) (fun _ => false)).2.2.2.2.2.1
      rfl (fun _ _ => rfl),
    (C8_retry_budgets (fun _ => false) (fun _ => true) (fun _ => false)).2.1
      (fun _ _ => rfl)⟩

/-- C10: with total = 0 the throttle refuses every update, for any current
count, last update time and last percentage, so a zero-total transfer emits
nothing and the percentage is never computed. -/
theorem C10_zero_total (current : ℕ) (now last_update : ℚ) (lp : ℤ) :
    should_update_progress current 0 now last_update lp = false := by
  simp [should_update_progress]

/-- Witness for C2 with n = 2, two updates completing and one update leaving
the job RUNNING. -/
theorem C2_recordProgress_witness :
    (∃ jj, run_updates (start_batch emptyController 1 2 10 7 "private" 99 0).2 1
        [5, 6] 1 = some jj ∧ jj.state = .COMPLETED ∧ jj.current = 2) ∧
    (∀ jj, run_updates (start_batch emptyController 1 2 10 7 "private" 99 0).2 1
        [5] 1 = some jj → jj.state ≠ .COMPLETED) :=
  C2_recordProgress 1 2 10 7 99 "private" 0 [5, 6] [5]
    (by decide) (by decide) (by decide) (by decide)

end TGDL
